import Mathlib

/-!
Verification development for the pricing core of `athenaapi.py`: a shallow
embedding of the JSON flattener (`flatten_all_json`), the four pricing
extractors (`parse_completion_design`, `parse_frac_chemicals`,
`parse_cartage_charges`, `parse_service_charges`) and the aggregation stage of
`main_app` (concatenation, extended totals, grouped summary).

Modelling conventions:
* JSON numbers are represented exactly as rationals; Python `float`
  arithmetic on the inputs appearing in the claims is exact, so the derived
  totals agree with the rational values.
* A Python exception escaping a function is modelled by `Option`/`Except`
  results (`none` / `.error`).
* Python `dict.get` returns `None` both for a missing key and for a stored
  JSON null; the model conflates the two the same way.
-/

set_option maxRecDepth 8000

namespace Athena

/-- JSON values as delivered by `resp.json()`: null, booleans, numbers,
strings, arrays and objects (objects as ordered key/value lists; keys are
unique in data produced by Python's JSON parser). -/
inductive Json where
  | null : Json
  | bool : Bool → Json
  | num : ℚ → Json
  | str : String → Json
  | arr : List Json → Json
  | obj : List (String × Json) → Json

/-- Python truthiness of a JSON value (`if not x`, `x or y`). -/
def pyTruthy : Json → Bool
  | .null => false
  | .bool b => b
  | .num q => decide (q ≠ 0)
  | .str s => !s.isEmpty
  | .arr xs => !xs.isEmpty
  | .obj fs => !fs.isEmpty

/-- Is the value a JSON object (Python `dict`)? -/
def Json.isObjB : Json → Bool
  | .obj _ => true
  | _ => false

/-- Is the value a scalar (null, boolean, number or string)? -/
def isScalar : Json → Bool
  | .null => true
  | .bool _ => true
  | .num _ => true
  | .str _ => true
  | _ => false

/-- First binding of a key in an object's field list (Python dict keys are
unique, so first = only). -/
def lookupField : List (String × Json) → String → Option Json
  | [], _ => none
  | kv :: fs, k => if kv.1 == k then some kv.2 else lookupField fs k

/-- Python `dict.get(k)` on a JSON value: `None` for a missing key and for a
stored null alike; on a non-dict this helper is never used (the source guards
or raises there). -/
def pyGet (j : Json) (k : String) : Option Json :=
  match j with
  | .obj fs =>
    match lookupField fs k with
    | some .null => none
    | some v => some v
    | none => none
  | _ => none

/-- Fail-fast traversal: Python loops stop at the first raised exception, so a
single failing element makes the whole call raise (`none`). -/
def mapMO (f : α → Option β) : List α → Option (List β)
  | [] => some []
  | x :: xs =>
    match f x with
    | none => none
    | some y =>
      match mapMO f xs with
      | none => none
      | some ys => some (y :: ys)

/-- Python `enumerate`, with explicit start index. -/
def withIdx (start : Nat) : List α → List (Nat × α)
  | [] => []
  | x :: xs => (start, x) :: withIdx (start + 1) xs

/-- Numeric value of a digit string (most significant first). -/
def digitsVal (ds : List Char) : Nat :=
  ds.foldl (fun a c => a * 10 + (c.toNat - 48)) 0

/-- Exponent suffix of a Python float literal: optional sign then digits. -/
def parseExpPart (base : ℚ) (cs : List Char) : Option ℚ :=
  let signed : Int × List Char :=
    match cs with
    | '+' :: t => (1, t)
    | '-' :: t => (-1, t)
    | _ => (1, cs)
  if signed.2 ≠ [] ∧ signed.2.all Char.isDigit = true then
    some (base * (10 : ℚ) ^ (signed.1 * (digitsVal signed.2 : Int)))
  else none

/-- Unsigned Python float literal: digits, optional fraction, optional
exponent; at least one digit overall. The integer-only case is returned
without adding a zero fraction so that the value is a plain numeral. -/
def parseUnsignedFloat (cs : List Char) : Option ℚ :=
  let ip := cs.takeWhile Char.isDigit
  let rest1 := cs.dropWhile Char.isDigit
  let fp := match rest1 with
    | '.' :: t => t.takeWhile Char.isDigit
    | _ => []
  let rest2 := match rest1 with
    | '.' :: t => t.dropWhile Char.isDigit
    | _ => rest1
  if ip = [] ∧ fp = [] then none
  else
    let mantissa : ℚ :=
      if fp.isEmpty then (digitsVal ip : ℚ)
      else (digitsVal ip : ℚ) + (digitsVal fp : ℚ) / (10 : ℚ) ^ fp.length
    match rest2 with
    | [] => some mantissa
    | 'e' :: t => parseExpPart mantissa t
    | 'E' :: t => parseExpPart mantissa t
    | _ => none

/-- Python `float(s)` for strings: strip whitespace, optional sign, finite
decimal/scientific notation (`inf`, `nan` and digit underscores are not
modelled; no payload in this development uses them). -/
def parsePyFloat (s : String) : Option ℚ :=
  let cs := ((s.data.dropWhile Char.isWhitespace).reverse.dropWhile Char.isWhitespace).reverse
  match cs with
  | '+' :: t => parseUnsignedFloat t
  | '-' :: t => (parseUnsignedFloat t).map (fun q => -q)
  | _ => parseUnsignedFloat cs

/-- Python `float(x)` on a JSON value: numbers pass through, strings are
parsed, booleans coerce to 0/1, lists/dicts raise `TypeError` (caught by the
caller and turned into `None`). -/
def pyFloat : Json → Option ℚ
  | .num q => some q
  | .str s => parsePyFloat s
  | .bool b => some (if b then 1 else 0)
  | _ => none

/-- Model of the source helper
`def _f(x): try: return float(x) if x is not None else None; except: return None`. -/
def _f (x : Option Json) : Option ℚ := x.bind pyFloat

/-- One normalized pricing line item, one per row of the parser outputs.
Text-like attributes keep the raw JSON value (`none` = missing or null);
numeric attributes carry the coerced value. -/
structure LineItem where
  project_number : String
  well_id : String
  source_attribute : String
  line_type : String
  design_idx : Option Nat
  orden : Option Json
  catalog_external : Option Json
  item_description : Option Json
  commercial_name : Option Json
  concentration : Option Json
  unit : Option Json
  unit_price : Option ℚ
  discount_pct : Option ℚ
  discounted_unit_price : Option ℚ
  quoted_quantity : Option ℚ

/-- Row built for one proppant dict of `parse_completion_design`; a non-dict
element raises `AttributeError` at the first `.get` (`none`). -/
def proppantRow (project_number well_id : String) (design_idx : Nat) (p : Json) :
    Option LineItem :=
  match p with
  | .obj _ => some
    { project_number := project_number
      well_id := well_id
      source_attribute := "completionDesign"
      line_type := "proppant"
      design_idx := some design_idx
      orden := none
      catalog_external := pyGet p "proppantSizeCatalogExternal"
      item_description := pyGet p "proppantCommercialName"
      commercial_name := pyGet p "proppantCommercialName"
      concentration := none
      unit := pyGet p "unit"
      unit_price := _f (pyGet p "unitPrice")
      discount_pct := _f (pyGet p "discountPercentage")
      discounted_unit_price := _f (pyGet p "discountedUnitPrice")
      quoted_quantity := _f (pyGet p "quotedQuantity") }
  | _ => none

/-- Python `for x in v` feeding each element to a row builder: lists iterate
elements, strings iterate one-character strings, dicts iterate their keys
(strings), anything else raises `TypeError`. -/
def pyIterRows (f : Json → Option LineItem) : Json → Option (List LineItem)
  | .arr xs => mapMO f xs
  | .str s => mapMO f (s.data.map fun c => Json.str (String.mk [c]))
  | .obj fs => mapMO f (fs.map fun kv => Json.str kv.1)
  | _ => none

/-- Body of the outer loop of `parse_completion_design`:
`proppants = d.get("proppantsTypeMesh", []) if isinstance(d, dict) else []`,
`if not proppants: continue`, then one row per proppant. -/
def designRows (project_number well_id : String) (design_idx : Nat) (d : Json) :
    Option (List LineItem) :=
  let proppants : Json :=
    match d with
    | .obj fs => (lookupField fs "proppantsTypeMesh").getD (.arr [])
    | _ => .arr []
  if pyTruthy proppants then pyIterRows (proppantRow project_number well_id design_idx) proppants
  else some []

/-- Model of `parse_completion_design(raw, project_number, well_id)`:
a non-list `raw` yields no rows; rows of all designs are concatenated. -/
def parse_completion_design (raw : Json) (project_number well_id : String) :
    Option (List LineItem) :=
  match raw with
  | .arr designs =>
    (mapMO (fun p => designRows project_number well_id p.1 p.2) (withIdx 0 designs)).map
      List.flatten
  | _ => some []

/-- Row built for one chemical dict of `parse_frac_chemicals`; the discount
percentage is read from the key literally named `discount`. -/
def chemRow (project_number well_id : String) (grp_idx : Nat) (ch : Json) :
    Option LineItem :=
  match ch with
  | .obj _ => some
    { project_number := project_number
      well_id := well_id
      source_attribute := "fracChemicals"
      line_type := "chemical"
      design_idx := some grp_idx
      orden := none
      catalog_external := pyGet ch "chemicalTypeCatalogExternal"
      item_description := pyGet ch "commercialName"
      commercial_name := pyGet ch "commercialName"
      concentration := pyGet ch "concentration"
      unit := pyGet ch "unit"
      unit_price := _f (pyGet ch "unitPrice")
      discount_pct := _f (pyGet ch "discount")
      discounted_unit_price := _f (pyGet ch "discountedUnitPrice")
      quoted_quantity := _f (pyGet ch "quotedQuantity") }
  | _ => none

/-- Body of the outer loop of `parse_frac_chemicals`: unlike completion
design there is no truthiness guard, so the loop iterates whatever
`grp.get("chemTypes", [])` returned. -/
def groupRows (project_number well_id : String) (grp_idx : Nat) (grp : Json) :
    Option (List LineItem) :=
  let chem_types : Json :=
    match grp with
    | .obj fs => (lookupField fs "chemTypes").getD (.arr [])
    | _ => .arr []
  pyIterRows (chemRow project_number well_id grp_idx) chem_types

/-- Model of `parse_frac_chemicals(raw, project_number, well_id)`. -/
def parse_frac_chemicals (raw : Json) (project_number well_id : String) :
    Option (List LineItem) :=
  match raw with
  | .arr groups =>
    (mapMO (fun p => groupRows project_number well_id p.1 p.2) (withIdx 0 groups)).map
      List.flatten
  | _ => some []

/-- `(mu or {}).get("label")` where `mu = it.get("measurementUnits")`: a falsy
`mu` (missing, null, `False`, `0`, empty string/list/dict) falls back to the
empty dict; a truthy non-dict raises `AttributeError` (`none`). -/
def muLabel (it : Json) : Option (Option Json) :=
  match pyGet it "measurementUnits" with
  | none => some none
  | some v =>
    if pyTruthy v then
      match v with
      | .obj _ => some (pyGet v "label")
      | _ => none
    else some none

/-- Row built for one cartage dict; a non-dict element raises at
`it.get("orden")` since only the `measurementUnits` lookup is guarded by
`isinstance(it, dict)`. -/
def cartageRow (project_number well_id : String) (it : Json) : Option LineItem :=
  match it with
  | .obj _ =>
    (muLabel it).map fun u =>
    { project_number := project_number
      well_id := well_id
      source_attribute := "cartageCharges"
      line_type := "cartage"
      design_idx := none
      orden := pyGet it "orden"
      catalog_external := pyGet it "cartageChargeCatalogExternal"
      item_description := pyGet it "itemDescription"
      commercial_name := none
      concentration := none
      unit := u
      unit_price := _f (pyGet it "unitPrice")
      discount_pct := _f (pyGet it "discountPercentage")
      discounted_unit_price := _f (pyGet it "discountedUnitPrice")
      quoted_quantity := _f (pyGet it "quotedQuantity") }
  | _ => none

/-- Model of `parse_cartage_charges(raw, project_number, well_id)`. -/
def parse_cartage_charges (raw : Json) (project_number well_id : String) :
    Option (List LineItem) :=
  match raw with
  | .arr items => mapMO (cartageRow project_number well_id) items
  | _ => some []

/-- Row built for one service-charge dict; same guard structure as cartage. -/
def serviceRow (project_number well_id : String) (it : Json) : Option LineItem :=
  match it with
  | .obj _ =>
    (muLabel it).map fun u =>
    { project_number := project_number
      well_id := well_id
      source_attribute := "serviceCharges"
      line_type := "service"
      design_idx := none
      orden := pyGet it "orden"
      catalog_external := pyGet it "serviceChargeCatalogExternal"
      item_description := pyGet it "itemDescription"
      commercial_name := none
      concentration := none
      unit := u
      unit_price := _f (pyGet it "unitPrice")
      discount_pct := _f (pyGet it "discountPercentage")
      discounted_unit_price := _f (pyGet it "discountedUnitPrice")
      quoted_quantity := _f (pyGet it "quotedQuantity") }
  | _ => none

/-- Model of `parse_service_charges(raw, project_number, well_id)`. -/
def parse_service_charges (raw : Json) (project_number well_id : String) :
    Option (List LineItem) :=
  match raw with
  | .arr items => mapMO (serviceRow project_number well_id) items
  | _ => some []

/-- A line item together with the two derived total columns added by
`main_app`. -/
structure PricedItem extends LineItem where
  extended_discounted : ℚ
  extended_list : ℚ

/-- The extended-total computation of `main_app`:
`fillna(0)` on each operand column, then the product. -/
def addExtended (r : LineItem) : PricedItem :=
  { r with
    extended_discounted := r.discounted_unit_price.getD 0 * r.quoted_quantity.getD 0
    extended_list := r.unit_price.getD 0 * r.quoted_quantity.getD 0 }

/-- One row of the `groupby(["well_id", "line_type"])` summary table. -/
structure SummaryRecord where
  well_id : String
  line_type : String
  lines : Nat
  total_qty : ℚ
  total_discounted : ℚ
  total_list : ℚ

/-- Code-point comparison of character lists: Python's string ordering. -/
def charsLt : List Char → List Char → Bool
  | [], [] => false
  | [], _ :: _ => true
  | _ :: _, [] => false
  | a :: as, b :: bs =>
    if a.toNat < b.toNat then true
    else if b.toNat < a.toNat then false
    else charsLt as bs

/-- Strict ordering of group keys, as pandas sorts `(well_id, line_type)`
pairs ascending. -/
def keyLt (a b : String × String) : Bool :=
  charsLt a.1.data b.1.data ||
    (a.1 == b.1 && charsLt a.2.data b.2.data)

/-- Insert into a sorted key list. -/
def insKey (k : String × String) : List (String × String) → List (String × String)
  | [] => [k]
  | h :: t => if keyLt k h then k :: h :: t else h :: insKey k t

/-- Sort group keys ascending (keys are distinct, so any sort matches the
pandas groupby key order). -/
def sortKeys : List (String × String) → List (String × String)
  | [] => []
  | h :: t => insKey h (sortKeys t)

/-- The distinct `(well_id, line_type)` pairs of the pricing table, in the
sorted order pandas produces. -/
def summaryKeys (items : List PricedItem) : List (String × String) :=
  (sortKeys ((items.map fun r => (r.well_id, r.line_type)).dedup))

/-- The rows of one `(well_id, line_type)` group. -/
def groupOf (items : List PricedItem) (k : String × String) : List PricedItem :=
  items.filter fun r => r.well_id == k.1 && r.line_type == k.2

/-- Model of the summary aggregation of `main_app`: one record per distinct
`(well_id, line_type)` pair with the group size and the three sums (pandas
`sum` skips NaN, which matches summing `getD 0`). -/
def summarize (items : List PricedItem) : List SummaryRecord :=
  (summaryKeys items).map fun k =>
    { well_id := k.1
      line_type := k.2
      lines := (groupOf items k).length
      total_qty := ((groupOf items k).map fun r => r.quoted_quantity.getD 0).sum
      total_discounted := ((groupOf items k).map fun r => r.extended_discounted).sum
      total_list := ((groupOf items k).map fun r => r.extended_list).sum }

/-- The pricing tail of `main_app`, from the per-well/per-source parser
outputs to the displayed tables.  `pd.concat` is only reached when
`pricing_frames` is non-empty; it drops empty frames first and raises
`ValueError("No objects to concatenate")` when nothing remains.  On success
the extended totals are added and the summary computed. -/
def main_app_pricing (frames : List (List LineItem)) :
    Except String (List PricedItem × List SummaryRecord) :=
  if frames.isEmpty then .ok ([], [])
  else
    match frames.filter (fun f => !f.isEmpty) with
    | [] => .error "No objects to concatenate"
    | nonempty =>
      let rows := (nonempty.flatten).map addExtended
      .ok (rows, summarize rows)

/-! ### The flattener `flatten_all_json` -/

/-- One row of an intermediate DataFrame: column name to cell value.  Missing
columns are simply absent; `NaN` cells (from exploding an empty list) are
modelled as JSON null, which behaves identically in this loop (both are
non-list scalars). -/
abbrev Record := List (String × Json)

/-- An intermediate DataFrame as an ordered list of rows. -/
abbrev Table := List Record

mutual
/-- `pandas.io.json._normalize.nested_to_record` on one value under key `k`:
nested dicts are spliced into `sep`-joined key paths, everything else is kept
as a cell. -/
def flattenKV (sep k : String) : Json → List (String × Json)
  | .obj fs => flattenFields sep k fs
  | v => [(k, v)]

/-- Splice all fields of a nested dict under prefix `k`. -/
def flattenFields (sep k : String) : List (String × Json) → List (String × Json)
  | [] => []
  | kv :: rest => flattenKV sep (k ++ sep ++ kv.1) kv.2 ++ flattenFields sep k rest
end

/-- Python dict assignment while rebuilding a record: replace an existing key
in place, else append.  (Pandas appends spliced keys after scalar ones; the
resulting column order differs but no claim depends on column order.) -/
def upsert (r : Record) (k : String) (v : Json) : Record :=
  if r.any fun kv => kv.1 == k then
    r.map fun kv => if kv.1 == k then (k, v) else kv
  else r ++ [(k, v)]

/-- `pd.json_normalize` applied to one record: flatten every cell and
rebuild the dict by repeated assignment.  On a duplicate flattened key path
this keeps the later-in-field-order value, whereas pandas'
`nested_to_record` merges each spliced sub-record with `dict.update` into a
dict still holding the literal key and then skips the level-0 non-dict keys,
so there the spliced value wins regardless of field order (and a path
colliding with a dict-valued key can even make the recursion raise).
Collision-sensitive results therefore carry a `noPathCollision` hypothesis;
on collision-free records the rebuild is append-only
(`normalizeRecord_eq_flatMap`) and the two overwrite policies coincide. -/
def normalizeRecord (sep : String) (r : Record) : Record :=
  (r.flatMap fun kv => flattenKV sep kv.1 kv.2).foldl
    (fun acc kv => upsert acc kv.1 kv.2) []

/-- `pd.json_normalize(data, sep=sep)` on the raw payload: a dict is one
record, a list of dicts is one record each, an empty list is an empty table;
a scalar or a list containing a non-dict raises (`none`). -/
def jsonNormalizeTop (sep : String) : Json → Option Table
  | .obj fs => some [normalizeRecord sep fs]
  | .arr xs => mapMO (fun x =>
      match x with
      | .obj fs => some (normalizeRecord sep fs)
      | _ => none) xs
  | _ => none

/-- Column names of the table, in first-appearance order. -/
def columns (t : Table) : List String := (t.flatMap fun r => r.map Prod.fst).dedup

/-- Does any row hold a list in column `c`? -/
def colHasList (t : Table) (c : String) : Bool :=
  t.any fun r =>
    match lookupField r c with
    | some (.arr _) => true
    | _ => false

/-- `list_cols`: the columns that currently contain at least one list. -/
def listCols (t : Table) : List String := (columns t).filter (colHasList t)

/-- `Series.explode` on one cell: a list becomes its elements, an empty list
becomes a single NaN (modelled as null), a non-list is kept as is. -/
def explodeVal : Json → List Json
  | .arr xs => if xs.isEmpty then [Json.null] else xs
  | v => [v]

/-- Overwrite the cell of column `c`. -/
def setCell (r : Record) (c : String) (v : Json) : Record :=
  r.map fun kv => if kv.1 == c then (c, v) else kv

/-- `df.explode(col)` restricted to one row: rows without the column are
kept unchanged. -/
def explodeRecord (c : String) (r : Record) : List Record :=
  match lookupField r c with
  | some v => (explodeVal v).map (setCell r c)
  | none => [r]

/-- One iteration of the inner `for col in list_cols` loop:
`df = df.explode(col)` then `df = pd.json_normalize(df.to_dict("records"))`. -/
def explodeStep (sep : String) (t : Table) (c : String) : Table :=
  (t.flatMap (explodeRecord c)).map (normalizeRecord sep)

/-- One iteration of the outer `while True` loop body (after the
`list_cols` check): explode every currently-flagged list column once. -/
def passOnce (sep : String) (t : Table) : Table :=
  (listCols t).foldl (explodeStep sep) t

/-- The `while True` loop, with explicit fuel.  The source has no iteration
cap; the fuel below is instantiated with an upper bound on the number of
iterations the loop actually performs, so the model computes the loop's
fixpoint exactly. -/
def flattenLoop (sep : String) : Nat → Table → Table
  | 0, t => t
  | n + 1, t => if (listCols t).isEmpty then t else flattenLoop sep n (passOnce sep t)

mutual
/-- Maximal list-nesting measure of a JSON value: each array level counts 1,
dict nesting is transparent (dicts get spliced away by normalization). -/
def muJ : Json → Nat
  | .null => 0
  | .bool _ => 0
  | .num _ => 0
  | .str _ => 0
  | .arr xs => muL xs + 1
  | .obj fs => muF fs

/-- Maximum of `muJ` over a list of values. -/
def muL : List Json → Nat
  | [] => 0
  | x :: xs => max (muJ x) (muL xs)

/-- Maximum of `muJ` over the values of a field list. -/
def muF : List (String × Json) → Nat
  | [] => 0
  | kv :: fs => max (muJ kv.2) (muF fs)
end

/-- Measure of a whole table: the maximal `muJ` over all cells. -/
def tableMu (t : Table) : Nat := muF t.flatten

/-- Model of `flatten_all_json(raw_json, sep)`: `None` input gives an empty
table; otherwise normalize the top level (which can raise) and run the
explode loop to its fixpoint (`tableMu` bounds the number of iterations the
source loop performs, see the termination lemmas below). -/
def flatten_all_json (sep : String) : Json → Option Table
  | .null => some []
  | j => (jsonNormalizeTop sep j).map fun t => flattenLoop sep (tableMu t) t

/-! ### Input-class predicates used by the claims -/

/-- A dict none of whose keys belongs to `ks`. -/
def objWithoutKeys (ks : List String) : Json → Bool
  | .obj fs => fs.all fun kv => !ks.contains kv.1
  | _ => false

/-- The malformed-input class of the null-safety claim: null, any non-list
value, or a list of dicts each missing every expected key. -/
def benignInput (ks : List String) : Json → Bool
  | .arr xs => xs.all (objWithoutKeys ks)
  | _ => true

/-- Keys `parse_completion_design` reads. -/
def completionKeys : List String :=
  ["proppantsTypeMesh", "proppantSizeCatalogExternal", "proppantCommercialName",
   "unit", "unitPrice", "discountPercentage", "discountedUnitPrice", "quotedQuantity"]

/-- Keys `parse_frac_chemicals` reads. -/
def fracKeys : List String :=
  ["chemTypes", "chemicalTypeCatalogExternal", "commercialName", "concentration",
   "unit", "unitPrice", "discount", "discountedUnitPrice", "quotedQuantity"]

/-- Keys `parse_cartage_charges` reads. -/
def cartageKeys : List String :=
  ["measurementUnits", "orden", "cartageChargeCatalogExternal", "itemDescription",
   "unitPrice", "discountPercentage", "discountedUnitPrice", "quotedQuantity"]

/-- Keys `parse_service_charges` reads. -/
def serviceKeys : List String :=
  ["measurementUnits", "orden", "serviceChargeCatalogExternal", "itemDescription",
   "unitPrice", "discountPercentage", "discountedUnitPrice", "quotedQuantity"]

/-- All non-identifier attributes of a line item are null. -/
def onlyProvenance (r : LineItem) : Prop :=
  r.orden = none ∧ r.catalog_external = none ∧ r.item_description = none ∧
    r.commercial_name = none ∧ r.concentration = none ∧ r.unit = none ∧
    r.unit_price = none ∧ r.discount_pct = none ∧ r.discounted_unit_price = none ∧
    r.quoted_quantity = none

/-- The all-null cartage row produced for a dict with no expected keys. -/
def cartageBlank (project_number well_id : String) : LineItem :=
  { project_number := project_number
    well_id := well_id
    source_attribute := "cartageCharges"
    line_type := "cartage"
    design_idx := none
    orden := none
    catalog_external := none
    item_description := none
    commercial_name := none
    concentration := none
    unit := none
    unit_price := none
    discount_pct := none
    discounted_unit_price := none
    quoted_quantity := none }

/-- The all-null service row produced for a dict with no expected keys. -/
def serviceBlank (project_number well_id : String) : LineItem :=
  { cartageBlank project_number well_id with
    source_attribute := "serviceCharges"
    line_type := "service" }

/-- Elements on which the cartage/service row construction cannot raise: a
dict whose `measurementUnits` value, when truthy, is itself a dict. -/
def muValueOk (it : Json) : Bool :=
  match pyGet it "measurementUnits" with
  | none => true
  | some v => if pyTruthy v then v.isObjB else true

/-- Cells allowed by the scalar-element-lists fragment of the row-count
claim: scalars and lists of scalars. -/
def flatCell : Json → Bool
  | .arr xs => xs.all isScalar
  | v => isScalar v

mutual
/-- Trees all of whose lists contain only scalars (dict nesting is
unrestricted). -/
def flatListsJ : Json → Bool
  | .arr xs => flatListsL xs
  | .obj fs => flatListsF fs
  | _ => true

/-- All elements are scalars. -/
def flatListsL : List Json → Bool
  | [] => true
  | x :: xs => isScalar x && flatListsL xs

/-- All field values satisfy `flatListsJ`. -/
def flatListsF : List (String × Json) → Bool
  | [] => true
  | kv :: fs => flatListsJ kv.2 && flatListsF fs
end

/-- All flattened key paths `nested_to_record` emits for a record, with
multiplicity. -/
def pathsOf (sep : String) (r : Record) : List String :=
  (r.flatMap fun kv => flattenKV sep kv.1 kv.2).map Prod.fst

/-- A nesting of depth three: the explode loop needs several passes and
finishes without any iteration cap. -/
def c9Deep : Json := .obj [("a", .arr [.arr [.num 1]])]

/-- The completion-design payload of the end-to-end claim. -/
def c1Raw : Json :=
  .arr [.obj [("proppantsTypeMesh", .arr [.obj [
    ("proppantSizeCatalogExternal", .str "P100"),
    ("proppantCommercialName", .str "Sand"),
    ("unit", .str "LBS"),
    ("unitPrice", .num 0.05),
    ("discountPercentage", .num 10),
    ("discountedUnitPrice", .num 0.045),
    ("quotedQuantity", .num 200000)]])]]

/-- The single group dict of the frac-chemicals field-name claim, exactly as
the claim spells the raw payload. -/
def c5RawBare : Json :=
  .obj [("chemTypes", .arr [.obj [
    ("chemicalTypeCatalogExternal", .str "C1"),
    ("commercialName", .str "Gel"),
    ("unit", .str "GAL"),
    ("unitPrice", .str "2.5"),
    ("discount", .str "10"),
    ("discountedUnitPrice", .str "2.25"),
    ("quotedQuantity", .str "100")]])]

/-- The same chemical dict but with the discount under `discountPercentage`,
to show the extractor does not read that key. -/
def c5RawRenamed : Json :=
  .obj [("chemTypes", .arr [.obj [
    ("chemicalTypeCatalogExternal", .str "C1"),
    ("commercialName", .str "Gel"),
    ("unit", .str "GAL"),
    ("unitPrice", .str "2.5"),
    ("discountPercentage", .str "10"),
    ("discountedUnitPrice", .str "2.25"),
    ("quotedQuantity", .str "100")]])]

/-- Two cartage line items for well W1 with quantities 3 and 7 (the grouping
claim's example), already carrying their extended totals. -/
def c3Items : List PricedItem :=
  [addExtended { cartageBlank "P" "W1" with quoted_quantity := some 3 },
   addExtended { cartageBlank "P" "W1" with quoted_quantity := some 7 }]

/-- A line item with `unit_price = 10` and `quoted_quantity = 5` (the
extended-total claim's first example). -/
def c2Item10 : LineItem :=
  { cartageBlank "P" "W" with unit_price := some 10, quoted_quantity := some 5 }

/-- A line item with `unit_price = null` and `quoted_quantity = 5` (the
extended-total claim's second example). -/
def c2ItemNull : LineItem :=
  { cartageBlank "P" "W" with unit_price := none, quoted_quantity := some 5 }

/-- A list whose only element is a dict, but whose `measurementUnits` value
is a truthy non-dict: the row builders raise on it. -/
def c10Bad : List Json := [.obj [("measurementUnits", .str "LBS")]]

/-- The line item `parse_completion_design` produces from `c1Raw`. -/
def c1Item : LineItem :=
  { project_number := "PRJ-1", well_id := "42", source_attribute := "completionDesign",
    line_type := "proppant", design_idx := some 0, orden := none,
    catalog_external := some (.str "P100"), item_description := some (.str "Sand"),
    commercial_name := some (.str "Sand"), concentration := none, unit := some (.str "LBS"),
    unit_price := some 0.05, discount_pct := some 10,
    discounted_unit_price := some 0.045, quoted_quantity := some 200000 }

/-- The line item `parse_frac_chemicals` produces from `[c5RawBare]`; its
`discount_pct` is the parsed value of the `discount` key. -/
def c5Item : LineItem :=
  { project_number := "P", well_id := "W", source_attribute := "fracChemicals",
    line_type := "chemical", design_idx := some 0, orden := none,
    catalog_external := some (.str "C1"), item_description := some (.str "Gel"),
    commercial_name := some (.str "Gel"), concentration := none, unit := some (.str "GAL"),
    unit_price := parsePyFloat "2.5", discount_pct := some 10,
    discounted_unit_price := parsePyFloat "2.25", quoted_quantity := parsePyFloat "100" }

/-- The line item produced from `[c5RawRenamed]`: with the discount stored
under `discountPercentage`, `discount_pct` comes out null. -/
def c5ItemRenamed : LineItem :=
  { c5Item with discount_pct := none }

end Athena

namespace Athena

/-! ### General helper lemmas -/

theorem mapMO_some_of_forall {α β : Type} (f : α → Option β) (c : β) :
    ∀ xs : List α, (∀ x ∈ xs, f x = some c) → mapMO f xs = some (xs.map fun _ => c) := by
  intro xs
  induction xs with
  | nil => intro _; rfl
  | cons a as ih =>
    intro h
    have ha := h a (by simp)
    rw [mapMO, ha, ih (fun x hx => h x (by simp [hx]))]
    rfl

theorem mapMO_some_length {α β : Type} (f : α → Option β) :
    ∀ xs : List α, (∀ x ∈ xs, ∃ y, f x = some y) →
      ∃ ys, mapMO f xs = some ys ∧ ys.length = xs.length := by
  intro xs
  induction xs with
  | nil => intro _; exact ⟨[], rfl, rfl⟩
  | cons a as ih =>
    intro h
    obtain ⟨b, hb⟩ := h a (by simp)
    obtain ⟨bs, hbs, hlen⟩ := ih (fun x hx => h x (by simp [hx]))
    refine ⟨b :: bs, ?_, by simp [hlen]⟩
    rw [mapMO, hb, hbs]

theorem mapMO_none_of_mem {α β : Type} (f : α → Option β) :
    ∀ xs : List α, ∀ x ∈ xs, f x = none → mapMO f xs = none := by
  intro xs
  induction xs with
  | nil => intro x hx; cases hx
  | cons a as ih =>
    intro x hx hfx
    rw [mapMO]
    cases hx with
    | head => rw [hfx]
    | tail _ hx =>
      cases ha : f a with
      | none => rfl
      | some b => rw [ih x hx hfx]

theorem withIdx_mem {α : Type} :
    ∀ (l : List α) (s : Nat) (p : Nat × α), p ∈ withIdx s l → p.2 ∈ l := by
  intro l
  induction l with
  | nil => intro s p hp; cases hp
  | cons a as ih =>
    intro s p hp
    rw [withIdx] at hp
    cases hp with
    | head => simp
    | tail _ hp => exact List.mem_cons_of_mem _ (ih (s + 1) p hp)

theorem flatten_eq_nil {α : Type} :
    ∀ L : List (List α), (∀ l ∈ L, l = []) → L.flatten = [] := by
  intro L
  induction L with
  | nil => intro _; rfl
  | cons a as ih =>
    intro h
    rw [List.flatten_cons, h a (by simp), ih (fun l hl => h l (by simp [hl]))]
    rfl

theorem lookupField_eq_none (ks : List String) (k : String) (hk : k ∈ ks) :
    ∀ fs : List (String × Json), (fs.all fun kv => !ks.contains kv.1) = true →
      lookupField fs k = none := by
  intro fs
  induction fs with
  | nil => intro _; rfl
  | cons kv rest ih =>
    intro h
    rw [List.all_cons] at h
    obtain ⟨h1, h2⟩ := (Bool.and_eq_true _ _).mp h
    rw [lookupField]
    have hmem : kv.1 ∉ ks := by simpa using h1
    have hne : (kv.1 == k) = false :=
      beq_eq_false_iff_ne.mpr (fun he => hmem (he ▸ hk))
    rw [hne]
    exact ih h2

theorem pyGet_eq_none_of_benign (ks : List String) (k : String) (hk : k ∈ ks)
    (j : Json) (h : objWithoutKeys ks j = true) : pyGet j k = none := by
  cases j with
  | obj fs =>
    rw [pyGet, lookupField_eq_none ks k hk fs h]
  | null => rfl
  | bool b => rfl
  | num q => rfl
  | str s => rfl
  | arr xs => rfl

/-! ### Insertion-sort permutation lemmas -/

theorem insKey_perm (k : String × String) :
    ∀ l : List (String × String), (insKey k l).Perm (k :: l) := by
  intro l
  induction l with
  | nil => exact List.Perm.refl _
  | cons h t ih =>
    rw [insKey]
    split
    · exact List.Perm.refl _
    · exact (List.Perm.cons h ih).trans (List.Perm.swap k h t)

theorem sortKeys_perm : ∀ l : List (String × String), (sortKeys l).Perm l := by
  intro l
  induction l with
  | nil => exact List.Perm.refl _
  | cons h t ih =>
    rw [sortKeys]
    exact (insKey_perm h (sortKeys t)).trans (List.Perm.cons h ih)

theorem summaryKeys_perm (items : List PricedItem) :
    (summaryKeys items).Perm ((items.map fun r => (r.well_id, r.line_type)).dedup) :=
  sortKeys_perm _

/-! ### Claim theorems: extractors and aggregation -/

/-- C1: running `parse_completion_design` on the end-to-end completion-design
payload for project "PRJ-1" and well "42" yields exactly one line item, whose
extended totals (as computed by `main_app`) are 9000 and 10000. -/
theorem c1_end_to_end :
    parse_completion_design c1Raw "PRJ-1" "42" = some [c1Item] ∧
    (addExtended c1Item).extended_discounted = 9000 ∧
    (addExtended c1Item).extended_list = 10000 := by
  refine ⟨rfl, ?_, ?_⟩
  · norm_num [addExtended, c1Item]
  · norm_num [addExtended, c1Item]

/-- C5 counterexample: fed the claim's raw payload itself (a bare group dict,
not a list), `parse_frac_chemicals` returns the empty row list, so no line
item with `discount_pct = 10` is produced. -/
theorem c5_counterexample :
    parse_frac_chemicals c5RawBare "P" "W" = some [] ∧
    ¬∃ (rs : List LineItem) (r : LineItem),
        parse_frac_chemicals c5RawBare "P" "W" = some rs ∧ r ∈ rs := by
  refine ⟨rfl, ?_⟩
  rintro ⟨rs, r, hrs, hr⟩
  rw [show parse_frac_chemicals c5RawBare "P" "W" = some [] from rfl] at hrs
  cases hrs
  cases hr

/-- C5 amended: with the group dict wrapped in the expected top-level list,
`parse_frac_chemicals` yields one line item whose `discount_pct` comes from
the key literally named `discount` (value 10); if the same payload names the
key `discountPercentage` instead, `discount_pct` is null. -/
theorem c5_discount_key :
    parse_frac_chemicals (Json.arr [c5RawBare]) "P" "W" = some [c5Item] ∧
    c5Item.discount_pct = some 10 ∧
    parse_frac_chemicals (Json.arr [c5RawRenamed]) "P" "W" = some [c5ItemRenamed] ∧
    c5ItemRenamed.discount_pct = none :=
  ⟨rfl, rfl, rfl, rfl⟩

/-- C8: with one well fetched and all four extractor outputs empty,
`pd.concat` receives an empty list of frames and raises
`ValueError("No objects to concatenate")` — the "no data" info branch is only
reached when no pricing frame was ever appended. -/
theorem c8_all_empty_frames :
    main_app_pricing [[], [], [], []] = .error "No objects to concatenate" ∧
    main_app_pricing [] = .ok ([], []) := ⟨rfl, rfl⟩

/-- C2: every row of the concatenated pricing table gets
`extended_discounted = discounted_unit_price × quoted_quantity` and
`extended_list = unit_price × quoted_quantity` with missing operands as 0; in
particular `unit_price = 10, quoted_quantity = 5` gives 50 and
`unit_price = null, quoted_quantity = 5` gives 0. -/
theorem c2_extended_totals :
    (∀ frames rows summ,
      main_app_pricing frames = .ok (rows, summ) →
      ∀ r ∈ rows,
        r.extended_discounted = r.discounted_unit_price.getD 0 * r.quoted_quantity.getD 0 ∧
        r.extended_list = r.unit_price.getD 0 * r.quoted_quantity.getD 0) ∧
    (addExtended c2Item10).extended_list = 50 ∧
    (addExtended c2ItemNull).extended_list = 0 := by
  refine ⟨?_, ?_, ?_⟩
  · intro frames rows summ h r hr
    rw [main_app_pricing] at h
    split at h
    · simp only [Except.ok.injEq, Prod.mk.injEq] at h
      obtain ⟨h1, _⟩ := h
      subst h1
      cases hr
    · split at h
      · cases h
      · simp only [Except.ok.injEq, Prod.mk.injEq] at h
        obtain ⟨h1, _⟩ := h
        subst h1
        obtain ⟨base, _, rfl⟩ := List.mem_map.mp hr
        exact ⟨rfl, rfl⟩
  · norm_num [addExtended, c2Item10, cartageBlank]
  · norm_num [addExtended, c2ItemNull, cartageBlank]

/-- C2 witness: the general statement applied to the one-frame input holding
the `unit_price = 10, quoted_quantity = 5` item. -/
theorem c2_extended_totals_witness :
    (addExtended c2Item10).extended_discounted =
      (addExtended c2Item10).discounted_unit_price.getD 0 *
        (addExtended c2Item10).quoted_quantity.getD 0 ∧
    (addExtended c2Item10).extended_list =
      (addExtended c2Item10).unit_price.getD 0 *
        (addExtended c2Item10).quoted_quantity.getD 0 :=
  c2_extended_totals.1 [[c2Item10]] [addExtended c2Item10]
    (summarize [addExtended c2Item10]) rfl (addExtended c2Item10) (by simp)

/-! ### Null-safety lemmas for the four extractors -/

theorem designRows_benign (project_number well_id : String) (i : Nat) (d : Json)
    (h : objWithoutKeys completionKeys d = true) :
    designRows project_number well_id i d = some [] := by
  cases d with
  | obj fs =>
    have hl : lookupField fs "proppantsTypeMesh" = none :=
      lookupField_eq_none completionKeys _ (by simp [completionKeys]) fs h
    rw [designRows]
    simp only [hl]
    rfl
  | null => cases h
  | bool b => cases h
  | num q => cases h
  | str s => cases h
  | arr xs => cases h

theorem groupRows_benign (project_number well_id : String) (i : Nat) (grp : Json)
    (h : objWithoutKeys fracKeys grp = true) :
    groupRows project_number well_id i grp = some [] := by
  cases grp with
  | obj fs =>
    have hl : lookupField fs "chemTypes" = none :=
      lookupField_eq_none fracKeys _ (by simp [fracKeys]) fs h
    rw [groupRows]
    simp only [hl]
    rfl
  | null => cases h
  | bool b => cases h
  | num q => cases h
  | str s => cases h
  | arr xs => cases h

theorem cartageRow_benign (project_number well_id : String) (it : Json)
    (h : objWithoutKeys cartageKeys it = true) :
    cartageRow project_number well_id it = some (cartageBlank project_number well_id) := by
  cases it with
  | obj fs =>
    have key : ∀ k ∈ cartageKeys, pyGet (Json.obj fs) k = none := fun k hk =>
      pyGet_eq_none_of_benign cartageKeys k hk _ h
    rw [cartageRow, muLabel]
    rw [key "measurementUnits" (by simp [cartageKeys]),
      key "orden" (by simp [cartageKeys]),
      key "cartageChargeCatalogExternal" (by simp [cartageKeys]),
      key "itemDescription" (by simp [cartageKeys]),
      key "unitPrice" (by simp [cartageKeys]),
      key "discountPercentage" (by simp [cartageKeys]),
      key "discountedUnitPrice" (by simp [cartageKeys]),
      key "quotedQuantity" (by simp [cartageKeys])]
    rfl
  | null => cases h
  | bool b => cases h
  | num q => cases h
  | str s => cases h
  | arr xs => cases h

theorem serviceRow_benign (project_number well_id : String) (it : Json)
    (h : objWithoutKeys serviceKeys it = true) :
    serviceRow project_number well_id it = some (serviceBlank project_number well_id) := by
  cases it with
  | obj fs =>
    have key : ∀ k ∈ serviceKeys, pyGet (Json.obj fs) k = none := fun k hk =>
      pyGet_eq_none_of_benign serviceKeys k hk _ h
    rw [serviceRow, muLabel]
    rw [key "measurementUnits" (by simp [serviceKeys]),
      key "orden" (by simp [serviceKeys]),
      key "serviceChargeCatalogExternal" (by simp [serviceKeys]),
      key "itemDescription" (by simp [serviceKeys]),
      key "unitPrice" (by simp [serviceKeys]),
      key "discountPercentage" (by simp [serviceKeys]),
      key "discountedUnitPrice" (by simp [serviceKeys]),
      key "quotedQuantity" (by simp [serviceKeys])]
    rfl
  | null => cases h
  | bool b => cases h
  | num q => cases h
  | str s => cases h
  | arr xs => cases h

theorem onlyProvenance_cartageBlank (project_number well_id : String) :
    onlyProvenance (cartageBlank project_number well_id) :=
  ⟨rfl, rfl, rfl, rfl, rfl, rfl, rfl, rfl, rfl, rfl⟩

theorem onlyProvenance_serviceBlank (project_number well_id : String) :
    onlyProvenance (serviceBlank project_number well_id) :=
  ⟨rfl, rfl, rfl, rfl, rfl, rfl, rfl, rfl, rfl, rfl⟩

/-- C4: on null, non-list, or lists of dicts missing every expected key, all
four extractors return without raising: the two nested extractors return no
rows at all, and the two flat extractors return one all-null row per element,
with only the identifier/provenance fields populated. -/
theorem c4_null_safety (project_number well_id : String) :
    (∀ raw, benignInput completionKeys raw = true →
      parse_completion_design raw project_number well_id = some []) ∧
    (∀ raw, benignInput fracKeys raw = true →
      parse_frac_chemicals raw project_number well_id = some []) ∧
    (∀ raw, benignInput cartageKeys raw = true →
      ∃ rows, parse_cartage_charges raw project_number well_id = some rows ∧
        ∀ r ∈ rows, r = cartageBlank project_number well_id ∧ onlyProvenance r) ∧
    (∀ raw, benignInput serviceKeys raw = true →
      ∃ rows, parse_service_charges raw project_number well_id = some rows ∧
        ∀ r ∈ rows, r = serviceBlank project_number well_id ∧ onlyProvenance r) := by
  refine ⟨?_, ?_, ?_, ?_⟩
  · intro raw hb
    cases raw with
    | arr designs =>
      rw [benignInput] at hb
      rw [parse_completion_design,
        mapMO_some_of_forall _ [] _ (by
          intro p hp
          exact designRows_benign project_number well_id p.1 p.2
            (List.all_eq_true.mp hb p.2 (withIdx_mem designs 0 p hp)))]
      simp only [Option.map_some', Option.some.injEq]
      exact flatten_eq_nil _ (by
        intro l hl
        obtain ⟨_, _, hh⟩ := List.mem_map.mp hl
        exact hh.symm)
    | null => rfl
    | bool b => rfl
    | num q => rfl
    | str s => rfl
    | obj fs => rfl
  · intro raw hb
    cases raw with
    | arr groups =>
      rw [benignInput] at hb
      rw [parse_frac_chemicals,
        mapMO_some_of_forall _ [] _ (by
          intro p hp
          exact groupRows_benign project_number well_id p.1 p.2
            (List.all_eq_true.mp hb p.2 (withIdx_mem groups 0 p hp)))]
      simp only [Option.map_some', Option.some.injEq]
      exact flatten_eq_nil _ (by
        intro l hl
        obtain ⟨_, _, hh⟩ := List.mem_map.mp hl
        exact hh.symm)
    | null => rfl
    | bool b => rfl
    | num q => rfl
    | str s => rfl
    | obj fs => rfl
  · intro raw hb
    cases raw with
    | arr items =>
      rw [benignInput] at hb
      rw [parse_cartage_charges,
        mapMO_some_of_forall _ (cartageBlank project_number well_id) _ (by
          intro x hx
          exact cartageRow_benign project_number well_id x (List.all_eq_true.mp hb x hx))]
      refine ⟨_, rfl, ?_⟩
      intro r hr
      obtain ⟨_, _, hh⟩ := List.mem_map.mp hr
      exact hh ▸ ⟨rfl, onlyProvenance_cartageBlank project_number well_id⟩
    | null => exact ⟨[], rfl, by intro r hr; cases hr⟩
    | bool b => exact ⟨[], rfl, by intro r hr; cases hr⟩
    | num q => exact ⟨[], rfl, by intro r hr; cases hr⟩
    | str s => exact ⟨[], rfl, by intro r hr; cases hr⟩
    | obj fs => exact ⟨[], rfl, by intro r hr; cases hr⟩
  · intro raw hb
    cases raw with
    | arr items =>
      rw [benignInput] at hb
      rw [parse_service_charges,
        mapMO_some_of_forall _ (serviceBlank project_number well_id) _ (by
          intro x hx
          exact serviceRow_benign project_number well_id x (List.all_eq_true.mp hb x hx))]
      refine ⟨_, rfl, ?_⟩
      intro r hr
      obtain ⟨_, _, hh⟩ := List.mem_map.mp hr
      exact hh ▸ ⟨rfl, onlyProvenance_serviceBlank project_number well_id⟩
    | null => exact ⟨[], rfl, by intro r hr; cases hr⟩
    | bool b => exact ⟨[], rfl, by intro r hr; cases hr⟩
    | num q => exact ⟨[], rfl, by intro r hr; cases hr⟩
    | str s => exact ⟨[], rfl, by intro r hr; cases hr⟩
    | obj fs => exact ⟨[], rfl, by intro r hr; cases hr⟩

/-- C4 witness: the four parts applied to concrete malformed inputs (null, a
non-list dict, and a singleton list of a dict with only an unexpected key). -/
theorem c4_null_safety_witness :
    parse_completion_design Json.null "P" "W" = some [] ∧
    parse_frac_chemicals (Json.obj []) "P" "W" = some [] ∧
    (∃ rows, parse_cartage_charges (Json.arr [Json.obj [("x", Json.num 1)]]) "P" "W" =
        some rows ∧ ∀ r ∈ rows, r = cartageBlank "P" "W" ∧ onlyProvenance r) ∧
    (∃ rows, parse_service_charges (Json.arr [Json.obj [("x", Json.num 1)]]) "P" "W" =
        some rows ∧ ∀ r ∈ rows, r = serviceBlank "P" "W" ∧ onlyProvenance r) :=
  ⟨(c4_null_safety "P" "W").1 _ rfl, (c4_null_safety "P" "W").2.1 _ rfl,
   (c4_null_safety "P" "W").2.2.1 _ rfl, (c4_null_safety "P" "W").2.2.2 _ rfl⟩

/-! ### Lemmas for the all-dict precondition of cartage/service -/

theorem muLabel_isSome (it : Json) (h : muValueOk it = true) :
    ∃ u, muLabel it = some u := by
  rw [muValueOk] at h
  rw [muLabel]
  cases hg : pyGet it "measurementUnits" with
  | none => exact ⟨none, rfl⟩
  | some v =>
    simp only [hg] at h ⊢
    cases htv : pyTruthy v with
    | false => simp [htv]
    | true =>
      simp only [htv, if_true] at h ⊢
      cases v with
      | obj fs => exact ⟨_, rfl⟩
      | null => cases h
      | bool b => cases h
      | num q => cases h
      | str s => cases h
      | arr xs => cases h

theorem cartageRow_isSome (project_number well_id : String) (it : Json)
    (hobj : it.isObjB = true) (hmu : muValueOk it = true) :
    ∃ r, cartageRow project_number well_id it = some r := by
  cases it with
  | obj fs =>
    obtain ⟨u, hu⟩ := muLabel_isSome _ hmu
    rw [cartageRow, hu]
    exact ⟨_, rfl⟩
  | null => cases hobj
  | bool b => cases hobj
  | num q => cases hobj
  | str s => cases hobj
  | arr xs => cases hobj

theorem serviceRow_isSome (project_number well_id : String) (it : Json)
    (hobj : it.isObjB = true) (hmu : muValueOk it = true) :
    ∃ r, serviceRow project_number well_id it = some r := by
  cases it with
  | obj fs =>
    obtain ⟨u, hu⟩ := muLabel_isSome _ hmu
    rw [serviceRow, hu]
    exact ⟨_, rfl⟩
  | null => cases hobj
  | bool b => cases hobj
  | num q => cases hobj
  | str s => cases hobj
  | arr xs => cases hobj

theorem cartageRow_none_of_not_obj (project_number well_id : String) (it : Json)
    (h : it.isObjB = false) : cartageRow project_number well_id it = none := by
  cases it with
  | obj fs => cases h
  | null => rfl
  | bool b => rfl
  | num q => rfl
  | str s => rfl
  | arr xs => rfl

theorem serviceRow_none_of_not_obj (project_number well_id : String) (it : Json)
    (h : it.isObjB = false) : serviceRow project_number well_id it = none := by
  cases it with
  | obj fs => cases h
  | null => rfl
  | bool b => rfl
  | num q => rfl
  | str s => rfl
  | arr xs => rfl

/-- C10 counterexample: a list whose only element is a dict — but with a
truthy non-dict `measurementUnits` value — makes both flat extractors raise
(`'str' object has no attribute 'get'` at `(mu or {}).get("label")`), so
"all elements are dicts" alone does not guarantee an error-free run. -/
theorem c10_counterexample :
    (∀ x ∈ c10Bad, x.isObjB = true) ∧
    parse_cartage_charges (Json.arr c10Bad) "P" "W" = none ∧
    parse_service_charges (Json.arr c10Bad) "P" "W" = none := by
  refine ⟨?_, rfl, rfl⟩
  intro x hx
  simp only [c10Bad, List.mem_singleton] at hx
  subst hx
  rfl

/-- C10 amended: for a list of dicts whose `measurementUnits` values, when
truthy, are themselves dicts, both flat extractors return exactly one line
item per element (no element skipped, even an empty dict); and the
dict-element precondition is necessary — any non-dict element makes both
extractors raise, as only the `measurementUnits` lookup is guarded. -/
theorem c10_dict_elements (project_number well_id : String) (xs : List Json)
    (h : ∀ x ∈ xs, x.isObjB = true ∧ muValueOk x = true) :
    (∃ rows, parse_cartage_charges (Json.arr xs) project_number well_id = some rows ∧
      rows.length = xs.length) ∧
    (∃ rows, parse_service_charges (Json.arr xs) project_number well_id = some rows ∧
      rows.length = xs.length) ∧
    (∀ ys : List Json, (∃ y ∈ ys, y.isObjB = false) →
      parse_cartage_charges (Json.arr ys) project_number well_id = none ∧
      parse_service_charges (Json.arr ys) project_number well_id = none) := by
  refine ⟨?_, ?_, ?_⟩
  · obtain ⟨ys, hys, hlen⟩ := mapMO_some_length (cartageRow project_number well_id) xs
      (fun x hx => cartageRow_isSome project_number well_id x (h x hx).1 (h x hx).2)
    exact ⟨ys, by rw [parse_cartage_charges]; exact hys, hlen⟩
  · obtain ⟨ys, hys, hlen⟩ := mapMO_some_length (serviceRow project_number well_id) xs
      (fun x hx => serviceRow_isSome project_number well_id x (h x hx).1 (h x hx).2)
    exact ⟨ys, by rw [parse_service_charges]; exact hys, hlen⟩
  · rintro ys ⟨y, hy, hyo⟩
    constructor
    · rw [parse_cartage_charges]
      exact mapMO_none_of_mem _ ys y hy (cartageRow_none_of_not_obj _ _ y hyo)
    · rw [parse_service_charges]
      exact mapMO_none_of_mem _ ys y hy (serviceRow_none_of_not_obj _ _ y hyo)

/-- C10 witness: one-element list holding the empty dict — both extractors
produce exactly one row. -/
theorem c10_dict_elements_witness :
    (∃ rows, parse_cartage_charges (Json.arr [Json.obj []]) "P" "W" = some rows ∧
      rows.length = 1) ∧
    (∃ rows, parse_service_charges (Json.arr [Json.obj []]) "P" "W" = some rows ∧
      rows.length = 1) := by
  obtain ⟨⟨r1, h1, hl1⟩, ⟨r2, h2, hl2⟩, _⟩ :=
    c10_dict_elements "P" "W" [Json.obj []] (by
      intro x hx
      rw [List.mem_singleton] at hx
      subst hx
      exact ⟨rfl, rfl⟩)
  exact ⟨⟨r1, h1, hl1.trans rfl⟩, ⟨r2, h2, hl2.trans rfl⟩⟩

/-- C3: the summary stage produces exactly one record per distinct
`(well_id, line_type)` pair occurring in the pricing table, carrying the
group's line count and the three sums; in particular the two W1/cartage items
with quantities 3 and 7 give one record with `lines = 2` and
`total_qty = 10`. -/
theorem c3_summary_grouping :
    (∀ items : List PricedItem,
      ((summarize items).map fun s => (s.well_id, s.line_type)).Nodup ∧
      (∀ w lt : String, ((w, lt) ∈ (summarize items).map fun s => (s.well_id, s.line_type)) ↔
        (w, lt) ∈ items.map fun r => (r.well_id, r.line_type)) ∧
      (∀ s ∈ summarize items,
        s.lines = (groupOf items (s.well_id, s.line_type)).length ∧
        s.total_qty =
          ((groupOf items (s.well_id, s.line_type)).map fun r => r.quoted_quantity.getD 0).sum ∧
        s.total_discounted =
          ((groupOf items (s.well_id, s.line_type)).map fun r => r.extended_discounted).sum ∧
        s.total_list =
          ((groupOf items (s.well_id, s.line_type)).map fun r => r.extended_list).sum)) ∧
    (∃ s, summarize c3Items = [s] ∧ s.well_id = "W1" ∧ s.line_type = "cartage" ∧
      s.lines = 2 ∧ s.total_qty = 10) := by
  constructor
  · intro items
    have hperm := summaryKeys_perm items
    have hkey : ∀ (keys : List (String × String)) (f : String × String → SummaryRecord),
        (∀ k, ((f k).well_id, (f k).line_type) = k) →
        ((keys.map f).map fun s => (s.well_id, s.line_type)) = keys := by
      intro keys f hf
      induction keys with
      | nil => rfl
      | cons a t ih => rw [List.map_cons, List.map_cons, hf, ih]
    have hmap : ((summarize items).map fun s => (s.well_id, s.line_type)) =
        summaryKeys items := by
      rw [summarize]
      exact hkey _ _ (fun k => rfl)
    refine ⟨?_, ?_, ?_⟩
    · rw [hmap]
      exact hperm.nodup_iff.mpr (List.nodup_dedup _)
    · intro w lt
      rw [hmap, hperm.mem_iff, List.mem_dedup]
    · intro s hs
      rw [summarize] at hs
      obtain ⟨k, _, rfl⟩ := List.mem_map.mp hs
      exact ⟨rfl, rfl, rfl, rfl⟩
  · refine ⟨_, rfl, rfl, rfl, rfl, ?_⟩
    norm_num [groupOf, c3Items, addExtended, cartageBlank]

/-- C3 witness: the per-record content applied to the concrete summary row of
the two W1/cartage items. -/
theorem c3_summary_grouping_witness :
    ∃ s, s ∈ summarize c3Items ∧
      s.lines = (groupOf c3Items (s.well_id, s.line_type)).length ∧
      s.total_qty =
        ((groupOf c3Items (s.well_id, s.line_type)).map fun r => r.quoted_quantity.getD 0).sum := by
  obtain ⟨s, hlist, _, _, _, _⟩ := c3_summary_grouping.2
  have hs : s ∈ summarize c3Items := by rw [hlist]; exact List.mem_singleton.mpr rfl
  obtain ⟨h1, h2, _⟩ := (c3_summary_grouping.1 c3Items).2.2 s hs
  exact ⟨s, hs, h1, h2⟩

/-! ### Measure lemmas for the flattener -/

mutual
theorem flattenKV_val_bound (sep k : String) (v : Json) :
    ∀ kv' ∈ flattenKV sep k v, kv'.2.isObjB = false ∧ muJ kv'.2 ≤ muJ v := by
  cases v with
  | obj fs =>
    intro kv' h
    rw [flattenKV] at h
    have := flattenFields_val_bound sep k fs kv' h
    exact ⟨this.1, by rw [muJ]; exact this.2⟩
  | null =>
    intro kv' h
    simp only [flattenKV, List.mem_singleton] at h
    subst h
    exact ⟨rfl, le_refl _⟩
  | bool b =>
    intro kv' h
    simp only [flattenKV, List.mem_singleton] at h
    subst h
    exact ⟨rfl, le_refl _⟩
  | num q =>
    intro kv' h
    simp only [flattenKV, List.mem_singleton] at h
    subst h
    exact ⟨rfl, le_refl _⟩
  | str s =>
    intro kv' h
    simp only [flattenKV, List.mem_singleton] at h
    subst h
    exact ⟨rfl, le_refl _⟩
  | arr xs =>
    intro kv' h
    simp only [flattenKV, List.mem_singleton] at h
    subst h
    exact ⟨rfl, le_refl _⟩

theorem flattenFields_val_bound (sep k : String) (fs : List (String × Json)) :
    ∀ kv' ∈ flattenFields sep k fs, kv'.2.isObjB = false ∧ muJ kv'.2 ≤ muF fs := by
  cases fs with
  | nil =>
    intro kv' h
    rw [flattenFields] at h
    cases h
  | cons kv rest =>
    intro kv' h
    rw [flattenFields] at h
    rcases List.mem_append.mp h with h | h
    · have := flattenKV_val_bound sep (k ++ sep ++ kv.1) kv.2 kv' h
      exact ⟨this.1, le_trans this.2 (by rw [muF]; exact Nat.le_max_left _ _)⟩
    · have := flattenFields_val_bound sep k rest kv' h
      exact ⟨this.1, le_trans this.2 (by rw [muF]; exact Nat.le_max_right _ _)⟩
end

/-! ### Membership and key lemmas for records -/

/-- C9: the flattener has no iteration/depth cap and no `MalformedPayload`
error, and nothing is recovered locally: a malformed (scalar) payload makes
`pd.json_normalize` raise an ordinary exception (modelled as `none`), which
`main_app`'s catch-all turns into a fatal error for the whole project query;
a deeply nested payload is flattened to completion without any cap firing. -/
theorem c9_no_guard :
    flatten_all_json "_" (Json.num 5) = none ∧
    flatten_all_json "_" c9Deep = some [[("a", Json.num 1)]] := by
  constructor
  · rfl
  · simp [c9Deep, flatten_all_json, jsonNormalizeTop, normalizeRecord, flattenKV,
      flattenFields, upsert, tableMu, muJ, muL, muF, flattenLoop, passOnce, listCols,
      columns, colHasList, lookupField, explodeStep, explodeRecord, explodeVal, setCell,
      List.dedup, List.foldl, List.flatMap, List.pwFilter]

/-! ### Row-count lemmas (scalar-element-lists fragment) -/

theorem flatListsL_all : ∀ xs : List Json, flatListsL xs = true → xs.all isScalar = true := by
  intro xs
  induction xs with
  | nil => intro _; rfl
  | cons x rest ih =>
    intro h
    rw [flatListsL] at h
    obtain ⟨h1, h2⟩ := (Bool.and_eq_true _ _).mp h
    rw [List.all_cons, h1, ih h2]
    rfl

mutual
theorem flattenKV_flat (sep k : String) (v : Json) (hv : flatListsJ v = true) :
    ∀ kv' ∈ flattenKV sep k v, flatCell kv'.2 = true := by
  cases v with
  | obj fs =>
    intro kv' h
    rw [flattenKV] at h
    rw [flatListsJ] at hv
    exact flattenFields_flat sep k fs hv kv' h
  | arr xs =>
    intro kv' h
    simp only [flattenKV, List.mem_singleton] at h
    subst h
    rw [flatListsJ] at hv
    show flatCell (Json.arr xs) = true
    rw [flatCell]
    exact flatListsL_all xs hv
  | null =>
    intro kv' h
    simp only [flattenKV, List.mem_singleton] at h
    subst h
    rfl
  | bool b =>
    intro kv' h
    simp only [flattenKV, List.mem_singleton] at h
    subst h
    rfl
  | num q =>
    intro kv' h
    simp only [flattenKV, List.mem_singleton] at h
    subst h
    rfl
  | str s =>
    intro kv' h
    simp only [flattenKV, List.mem_singleton] at h
    subst h
    rfl

theorem flattenFields_flat (sep k : String) (fs : List (String × Json))
    (hfs : flatListsF fs = true) :
    ∀ kv' ∈ flattenFields sep k fs, flatCell kv'.2 = true := by
  cases fs with
  | nil =>
    intro kv' h
    rw [flattenFields] at h
    cases h
  | cons kv rest =>
    intro kv' h
    rw [flattenFields] at h
    rw [flatListsF] at hfs
    obtain ⟨h1, h2⟩ := (Bool.and_eq_true _ _).mp hfs
    rcases List.mem_append.mp h with h | h
    · exact flattenKV_flat sep (k ++ sep ++ kv.1) kv.2 h1 kv' h
    · exact flattenFields_flat sep k rest h2 kv' h
end

theorem any_keys_false (r : Record) (k : String) (h : k ∉ r.map Prod.fst) :
    (r.any fun kv => kv.1 == k) = false := by
  cases hany : r.any fun kv => kv.1 == k with
  | false => rfl
  | true =>
    exfalso
    obtain ⟨kv, hkv, hbeq⟩ := List.any_eq_true.mp hany
    exact h (List.mem_map.mpr ⟨kv, hkv, eq_of_beq hbeq⟩)

theorem foldl_upsert_id :
    ∀ (r acc : Record), ((acc ++ r).map Prod.fst).Nodup →
      r.foldl (fun a kv => upsert a kv.1 kv.2) acc = acc ++ r := by
  intro r
  induction r with
  | nil =>
    intro acc _
    rw [List.foldl_nil, List.append_nil]
  | cons a rest ih =>
    intro acc hnd
    have hnotin : a.1 ∉ acc.map Prod.fst := by
      rw [List.map_append, List.nodup_append] at hnd
      intro hin
      exact hnd.2.2 hin (by rw [List.map_cons]; exact List.mem_cons_self _ _)
    have hup : upsert acc a.1 a.2 = acc ++ [a] := by
      rw [upsert, if_neg (by rw [any_keys_false acc a.1 hnotin]; exact Bool.false_ne_true)]
    rw [List.foldl_cons, hup, ih (acc ++ [a]) (by rw [List.append_assoc]; exact hnd),
      List.append_assoc]
    rfl

theorem normalizeRecord_eq_flatMap (sep : String) (r : Record)
    (h : (pathsOf sep r).Nodup) :
    normalizeRecord sep r = r.flatMap fun kv => flattenKV sep kv.1 kv.2 := by
  rw [normalizeRecord]
  exact foldl_upsert_id _ [] (by rw [List.nil_append]; exact h)

end Athena

